import Mathlib

/-!
Verification development for the `jira-tools` repository
(`jira_edit_labels.py`, `jira_download_issues.py`).

The Python sources are shallowly embedded below: every definition is
translated from the source code (dicts become association lists with
first-match lookup, Python `None` and the `NOT_DOWNLOADED` sentinel become
explicit constructors, raised exceptions become `Option`/error results).
Theorems about the claims of the specification follow the definitions.
-/

namespace JiraTools

/-! ## Label update computation (`jira_edit_labels.py`, `main`, lines 93-106)

The Python code copies the current label list, builds a set of the original
labels, appends each `--add` label that is not in the original set, then for
each `--remove` label removes its first occurrence provided the label is in
the *original* set and still in the (updated) list.  `update_labels` is set
whenever either loop performs an action. -/

/-- The `for label in args.add_labels` loop: append `label` to `newLabels`
when it is not a member of `old_labels_set` (the set of the original
labels), recording in the boolean whether any append happened. -/
def addLoop (oldLabels : List String) : List String → List String → Bool →
    List String × Bool
  | [], newLabels, upd => (newLabels, upd)
  | l :: rest, newLabels, upd =>
    if l ∈ oldLabels then addLoop oldLabels rest newLabels upd
    else addLoop oldLabels rest (newLabels ++ [l]) true

/-- The `for label in args.remove_labels` loop: remove the first occurrence
of `label` from `newLabels` when `label` is in `old_labels_set` (membership
in the *original* list) and still occurs in `newLabels`; `List.erase`
matches Python's `list.remove` (first occurrence), and the `label in
new_labels` guard makes the call safe. -/
def removeLoop (oldLabels : List String) : List String → List String → Bool →
    List String × Bool
  | [], newLabels, upd => (newLabels, upd)
  | l :: rest, newLabels, upd =>
    if l ∈ oldLabels ∧ l ∈ newLabels then
      removeLoop oldLabels rest (newLabels.erase l) true
    else removeLoop oldLabels rest newLabels upd

/-- The complete per-issue label computation of `jira_edit_labels.main`
(lines 93-106): start from a copy of the old labels, run the add loop, then
the remove loop.  Returns the computed `new_labels` and the `update_labels`
flag. -/
def computeNewLabels (oldLabels addLabels removeLabels : List String) :
    List String × Bool :=
  let afterAdd := addLoop oldLabels addLabels oldLabels false
  removeLoop oldLabels removeLabels afterAdd.1 afterAdd.2

/-! ## Paginated issue iterator (`jira_get_issues` in both files,
lines 530-545 resp. 18-35)

The server is modelled as a list of records served in a fixed order; a
request at offset `start` with `limit = 200` returns
`(records.drop start).take 200`.  The Python loop fetches a page, yields all
its records, stops when a page is empty, and otherwise advances `start` by
the number of records received.  (`total` is read from the first response
but never used to stop the loop.)  The result is the full list of yielded
records together with the number of requests made. -/

def jqlLoop (records : List α) (start : Nat) : List α × Nat :=
  if h : ((records.drop start).take 200).isEmpty then ([], 1)
  else
    let rest := jqlLoop records (start + ((records.drop start).take 200).length)
    ((records.drop start).take 200 ++ rest.1, rest.2 + 1)
termination_by records.length - start
decreasing_by
  have hne : (records.drop start).take 200 ≠ [] := by
    simpa [List.isEmpty_iff] using h
  have h1 : records.drop start ≠ [] := by
    intro hd; apply hne; simp [hd]
  have h2 : start < records.length := by
    by_contra hle
    exact h1 (List.drop_eq_nil_of_le (by omega))
  have h3 : 1 ≤ ((records.drop start).take 200).length :=
    List.length_pos.mpr hne
  omega

/-- The iterator started at offset 0: what `jira_get_issues` yields for a
given server-side record list, and how many `jira.jql` requests it makes. -/
def jiraGetIssues (records : List α) : List α × Nat :=
  jqlLoop records 0

/-! ## Lemmas about the label loops -/

theorem addLoop_fst (oldLabels : List String) :
    ∀ (adds acc : List String) (u : Bool),
      (addLoop oldLabels adds acc u).1 =
        acc ++ adds.filter (fun l => !(decide (l ∈ oldLabels))) := by
  intro adds
  induction adds with
  | nil => intro acc u; simp [addLoop]
  | cons l rest ih =>
    intro acc u
    by_cases hl : l ∈ oldLabels
    · rw [addLoop, if_pos hl, ih, List.filter_cons]
      simp [hl]
    · rw [addLoop, if_neg hl, ih, List.filter_cons]
      simp [hl]

theorem addLoop_snd (oldLabels : List String) :
    ∀ (adds acc : List String) (u : Bool),
      ((addLoop oldLabels adds acc u).2 = true ↔
        u = true ∨ ∃ a ∈ adds, a ∉ oldLabels) := by
  intro adds
  induction adds with
  | nil => intro acc u; simp [addLoop]
  | cons l rest ih =>
    intro acc u
    by_cases hl : l ∈ oldLabels
    · rw [addLoop, if_pos hl, ih]
      constructor
      · rintro (hu | ⟨a, ha, hna⟩)
        · exact Or.inl hu
        · exact Or.inr ⟨a, List.mem_cons_of_mem _ ha, hna⟩
      · rintro (hu | ⟨a, ha, hna⟩)
        · exact Or.inl hu
        · rcases List.mem_cons.mp ha with rfl | ha'
          · exact absurd hl hna
          · exact Or.inr ⟨a, ha', hna⟩
    · rw [addLoop, if_neg hl, ih]
      constructor
      · intro _; exact Or.inr ⟨l, List.mem_cons_self _ _, hl⟩
      · intro _; exact Or.inl rfl

theorem addLoop_nochange (oldLabels : List String) :
    ∀ (adds acc : List String) (u : Bool), (∀ a ∈ adds, a ∈ oldLabels) →
      addLoop oldLabels adds acc u = (acc, u) := by
  intro adds
  induction adds with
  | nil => intro acc u _; rfl
  | cons l rest ih =>
    intro acc u h
    rw [addLoop, if_pos (h l (List.mem_cons_self _ _))]
    exact ih acc u fun a ha => h a (List.mem_cons_of_mem _ ha)

theorem removeLoop_nochange (oldLabels : List String) :
    ∀ (rems acc : List String) (u : Bool), (∀ r ∈ rems, r ∉ oldLabels) →
      removeLoop oldLabels rems acc u = (acc, u) := by
  intro rems
  induction rems with
  | nil => intro acc u _; rfl
  | cons l rest ih =>
    intro acc u h
    rw [removeLoop, if_neg (by
      rintro ⟨h1, _⟩
      exact h l (List.mem_cons_self _ _) h1)]
    exact ih acc u fun r hr => h r (List.mem_cons_of_mem _ hr)

theorem removeLoop_count (oldLabels : List String) (L : String) :
    ∀ (rems acc : List String) (u : Bool),
      ((removeLoop oldLabels rems acc u).1).count L =
        if L ∈ oldLabels then acc.count L - rems.count L else acc.count L := by
  intro rems
  induction rems with
  | nil => intro acc u; simp [removeLoop]
  | cons l rest ih =>
    intro acc u
    by_cases hc : l ∈ oldLabels ∧ l ∈ acc
    · rw [removeLoop, if_pos hc, ih]
      by_cases hL : L ∈ oldLabels
      · rw [if_pos hL, if_pos hL]
        by_cases hLl : L = l
        · subst hLl
          rw [List.count_erase_self, List.count_cons_self]
          have h1 : 1 ≤ acc.count L := List.count_pos_iff.mpr hc.2
          omega
        · rw [List.count_erase_of_ne hLl]
          have : (l :: rest).count L = rest.count L := by
            simp [List.count_cons, hLl]
          rw [this]
      · rw [if_neg hL, if_neg hL]
        have hLl : L ≠ l := fun h => hL (h ▸ hc.1)
        rw [List.count_erase_of_ne hLl]
    · rw [removeLoop, if_neg hc, ih]
      by_cases hL : L ∈ oldLabels
      · rw [if_pos hL, if_pos hL]
        by_cases hLl : L = l
        · subst hLl
          have h0 : acc.count L = 0 :=
            List.count_eq_zero.mpr fun hm => hc ⟨hL, hm⟩
          rw [h0, List.count_cons_self]
          omega
        · have : (l :: rest).count L = rest.count L := by
            simp [List.count_cons, hLl]
          rw [this]
      · rw [if_neg hL, if_neg hL]

theorem removeLoop_flag (oldLabels : List String) :
    ∀ (rems acc : List String) (u : Bool),
      (removeLoop oldLabels rems acc u).2 = true →
        u = true ∨ ∃ r ∈ rems, r ∈ oldLabels := by
  intro rems
  induction rems with
  | nil => intro acc u h; exact Or.inl (by simpa [removeLoop] using h)
  | cons l rest ih =>
    intro acc u h
    by_cases hc : l ∈ oldLabels ∧ l ∈ acc
    · exact Or.inr ⟨l, List.mem_cons_self _ _, hc.1⟩
    · rw [removeLoop, if_neg hc] at h
      rcases ih acc u h with hu | ⟨r, hr, hro⟩
      · exact Or.inl hu
      · exact Or.inr ⟨r, List.mem_cons_of_mem _ hr, hro⟩

theorem filter_not_mem_count (oldLabels adds : List String) (L : String) :
    (adds.filter (fun l => !(decide (l ∈ oldLabels)))).count L =
      if L ∈ oldLabels then 0 else adds.count L := by
  induction adds with
  | nil => simp
  | cons a rest ih =>
    rw [List.filter_cons]
    by_cases ha : a ∈ oldLabels
    · rw [if_neg (by simp [ha])]
      by_cases hL : L ∈ oldLabels
      · simpa [hL] using ih
      · have hne : L ≠ a := fun h => hL (h ▸ ha)
        rw [if_neg hL] at ih ⊢
        simp [List.count_cons, hne, ih]
    · rw [if_pos (by simp [ha])]
      by_cases hL : L ∈ oldLabels
      · have hne : L ≠ a := fun h => ha (h ▸ hL)
        simpa [hL, List.count_cons, hne] using ih
      · rw [if_neg hL] at ih ⊢
        simp [List.count_cons, ih]

/-- Exact multiplicity of any label in the computed new label list: a label
originally present keeps its multiplicity minus one per occurrence in the
remove list (truncated at zero) and is never re-added; a label not
originally present appears once per occurrence in the add list and is never
removed. -/
theorem computeNewLabels_count (oldLabels adds rems : List String) (L : String) :
    ((computeNewLabels oldLabels adds rems).1).count L =
      if L ∈ oldLabels then oldLabels.count L - rems.count L
      else adds.count L := by
  unfold computeNewLabels
  rw [removeLoop_count, addLoop_fst, List.count_append, filter_not_mem_count]
  by_cases hL : L ∈ oldLabels
  · simp [hL]
  · simp [hL, List.count_eq_zero.mpr hL]

theorem computeNewLabels_flag (oldLabels adds rems : List String) :
    (computeNewLabels oldLabels adds rems).2 = true →
      (∃ a ∈ adds, a ∉ oldLabels) ∨ ∃ r ∈ rems, r ∈ oldLabels := by
  unfold computeNewLabels
  intro h
  rcases removeLoop_flag _ _ _ _ h with h1 | h2
  · left
    have := (addLoop_snd oldLabels adds oldLabels false).mp h1
    simpa using this
  · right; exact h2

/-! ## Lemmas about the paginated iterator -/

theorem take_append_drop_len {α : Type} (n : Nat) (l : List α) :
    l.take n ++ l.drop ((l.take n).length) = l := by
  rw [List.length_take]
  by_cases hc : l.length ≤ n
  · rw [Nat.min_eq_right hc, List.drop_length, List.take_of_length_le hc,
      List.append_nil]
  · rw [Nat.min_eq_left (by omega), List.take_append_drop]

theorem jqlLoop_spec {α : Type} (records : List α) :
    ∀ (n start : Nat), records.length - start ≤ n →
      jqlLoop records start =
        (records.drop start, (records.length - start + 199) / 200 + 1) := by
  intro n
  induction n with
  | zero =>
    intro start h
    have hd : records.drop start = [] := List.drop_eq_nil_of_le (by omega)
    rw [jqlLoop, hd]
    have hz : records.length - start = 0 := by omega
    simp [hz]
  | succ n ih =>
    intro start h
    by_cases he : ((records.drop start).take 200).isEmpty
    · have hd : records.drop start = [] := by
        have := List.isEmpty_iff.mp he
        rcases List.take_eq_nil_iff.mp this with h200 | hnil
        · exact absurd h200 (by norm_num)
        · exact hnil
      have hlen : records.length ≤ start := by
        by_contra hlt
        exact (List.drop_eq_nil_iff.mp hd).not_lt (by omega)
      rw [jqlLoop, hd]
      have hz : records.length - start = 0 := by omega
      simp [hz]
    · rw [jqlLoop, dif_neg he]
      have hne : (records.drop start).take 200 ≠ [] := by
        simpa [List.isEmpty_iff] using he
      have hpos : 1 ≤ ((records.drop start).take 200).length :=
        List.length_pos.mpr hne
      have hlt : start < records.length := by
        by_contra hge
        exact hne (by rw [List.drop_eq_nil_of_le (by omega)]; rfl)
      have hp : ((records.drop start).take 200).length =
          min 200 (records.length - start) := by
        simp [List.length_take]
      rw [ih (start + ((records.drop start).take 200).length) (by omega)]
      have hdd : records.drop (start + ((records.drop start).take 200).length) =
          (records.drop start).drop (((records.drop start).take 200).length) := by
        rw [List.drop_drop, Nat.add_comm]
      simp only [Prod.mk.injEq]
      refine ⟨?_, ?_⟩
      · rw [hdd, take_append_drop_len]
      · rw [hp] at *
        omega

/-! ## Config handling and full runs of the label tool
(`jira_edit_labels.py` `main`, `jira_download_issues.py` `main`)

Python dictionaries / INI sections are association lists with first-match
lookup.  A run that hits `sys.exit(1)` after printing to stderr is a
`fatalExit`; an uncaught exception (configparser parse error,
`NoSectionError`, `NoOptionError`, `TypeError`) is a `crash` — CPython
terminates such a process with exit status 1 after printing the traceback
to standard error, so both shapes carry their stderr message.  Messages are
abbreviated; only their presence (non-emptiness) matters here.  Stdout
lines are modelled only for the update block of the label loop (lines
108-118); the informational prints are omitted. -/

def alookup {β : Type} : List (String × β) → String → Option β
  | [], _ => none
  | (k, v) :: rest, key => if k = key then some v else alookup rest key

/-- The state of the INI configuration file: absent, unparsable, or parsed
into the DEFAULT section and the named sections.  (An `--atlassian-domain`
or `--jql` given as the empty string is falsy in Python and behaves like an
omitted option; CLI options are therefore `Option String` with `none` for
"not specified or empty".) -/
inductive ConfigFile where
  | missing
  | invalid
  | parsed (defaults : List (String × String))
           (sections : List (String × List (String × String)))

/-- `cfg_parser.get(sect, key, fallback=None)`: raises `NoSectionError` when
the section does not exist, otherwise looks the key up in the section and
then in the DEFAULT section, returning `None` (here `none`) if both miss.
(The corner case of the section name being the literal DEFAULT section name
is not modelled.) -/
def cfgGetFallbackNone (defaults : List (String × String))
    (sections : List (String × List (String × String)))
    (sect key : String) : Except String (Option String) :=
  match alookup sections sect with
  | none => Except.error ("NoSectionError: " ++ sect)
  | some sec =>
    match alookup sec key with
    | some v => Except.ok (some v)
    | none => Except.ok (alookup defaults key)

/-- Resolution of the Atlassian domain (line 51 of either tool):
`args.atlassian_domain if args.atlassian_domain else
cfg_parser.get(DEFAULTSECT, "domain")`; the latter raises `NoOptionError`
when the DEFAULT section has no `domain`. -/
def resolveDomain (defaults : List (String × String))
    (cliDomain : Option String) : Except String String :=
  match cliDomain with
  | some d => Except.ok d
  | none =>
    match alookup defaults "domain" with
    | some d => Except.ok d
    | none => Except.error "NoOptionError: no option domain in section DEFAULT"

/-- Outcome of the part of `jira_edit_labels.main` that runs before the
Jira client is created (lines 46-80): configuration validation and the
check that at least one label was given. -/
inductive EditPrelude where
  | fatalExit (stderrMsg : String)
  | crash (stderrMsg : String)
  | ok (domain user token : String)

def EditPrelude.isOk : EditPrelude → Bool
  | .ok _ _ _ => true
  | _ => false

/-- Process exit code: `sys.exit(1)` and an uncaught exception both yield
exit status 1; `0` stands for "did not terminate in the prelude". -/
def EditPrelude.exitCode : EditPrelude → Nat
  | .fatalExit _ => 1
  | .crash _ => 1
  | .ok _ _ _ => 0

def EditPrelude.stderrMsg : EditPrelude → String
  | .fatalExit m => m
  | .crash m => m
  | .ok _ _ _ => ""

/-- Lines 46-80 of `jira_edit_labels.main`: existence of the config file,
parsing, resolution of the domain (CLI value, else `domain` from the
DEFAULT section — `NoOptionError` if absent), lookup of `user` and
`api_token` in the domain's section (explicit exit 1 when missing), and the
check that labels were supplied. -/
def editPrelude (cfg : ConfigFile) (cliDomain : Option String)
    (addLabels removeLabels : List String) : EditPrelude :=
  match cfg with
  | .missing => .fatalExit "Error: Configuration file not found"
  | .invalid => .crash "configparser: error while reading configuration file"
  | .parsed defaults sections =>
    match resolveDomain defaults cliDomain with
    | Except.error m => .crash m
    | Except.ok dom =>
      match cfgGetFallbackNone defaults sections dom "user" with
      | Except.error m => .crash m
      | Except.ok none =>
        .fatalExit "Error: user is not specified in configuration file"
      | Except.ok (some user) =>
        match cfgGetFallbackNone defaults sections dom "api_token" with
        | Except.error m => .crash m
        | Except.ok none =>
          .fatalExit "Error: api_token is not specified in configuration file"
        | Except.ok (some token) =>
          if addLabels.isEmpty && removeLabels.isEmpty then
            .fatalExit "Error: no labels specified for adding and/or removing"
          else .ok dom user token

/-- Outcome of the part of `jira_download_issues.main` before the Jira
client is created (lines 549-563): same configuration validation, then
resolution of the JQL query (CLI value, else `jql` from the DEFAULT
section). -/
inductive DownPrelude where
  | fatalExit (stderrMsg : String)
  | crash (stderrMsg : String)
  | ok (domain user token jql : String)

def DownPrelude.isOk : DownPrelude → Bool
  | .ok _ _ _ _ => true
  | _ => false

def DownPrelude.exitCode : DownPrelude → Nat
  | .fatalExit _ => 1
  | .crash _ => 1
  | .ok _ _ _ _ => 0

def DownPrelude.stderrMsg : DownPrelude → String
  | .fatalExit m => m
  | .crash m => m
  | .ok _ _ _ _ => ""

def downPrelude (cfg : ConfigFile) (cliDomain cliJql : Option String) :
    DownPrelude :=
  match cfg with
  | .missing => .fatalExit "Error: Configuration file not found"
  | .invalid => .crash "configparser: error while reading configuration file"
  | .parsed defaults sections =>
    match resolveDomain defaults cliDomain with
    | Except.error m => .crash m
    | Except.ok dom =>
      match cfgGetFallbackNone defaults sections dom "user" with
      | Except.error m => .crash m
      | Except.ok none =>
        .fatalExit "Error: user is not specified in configuration file"
      | Except.ok (some user) =>
        match cfgGetFallbackNone defaults sections dom "api_token" with
        | Except.error m => .crash m
        | Except.ok none =>
          .fatalExit "Error: api_token is not specified in configuration file"
        | Except.ok (some token) =>
          match cliJql with
          | some j => .ok dom user token j
          | none =>
            match alookup defaults "jql" with
            | some j => .ok dom user token j
            | none => .crash "NoOptionError: no option jql in section DEFAULT"

/-- Result of a full run of the label tool.  `fatal` covers `sys.exit(1)`
and uncaught exceptions; `finished` carries the issued
`jira.update_issue_field` calls, the log lines of the update block, the
number of issues processed and the `num_updated_issues` counter. -/
inductive RunResult where
  | fatal (exitCode : Nat) (stderrMsg : String)
      (updateCalls : List (String × List String)) (processed : Nat)
  | finished (updateCalls : List (String × List String))
      (updateLog : List String) (processed numUpdated : Nat)

def RunResult.updateCalls : RunResult → List (String × List String)
  | .fatal _ _ u _ => u
  | .finished u _ _ _ => u

def RunResult.processed : RunResult → Nat
  | .fatal _ _ _ p => p
  | .finished _ _ p _ => p

/-- One iteration of the issue loop of `jira_edit_labels.main` (lines
87-118), threading (update calls, update-block log lines, updated
counter). -/
def editIssueStep (addLabels removeLabels : List String) (dryRun : Bool)
    (acc : List (String × List String) × List String × Nat)
    (issue : String × List String) :
    List (String × List String) × List String × Nat :=
  let r := computeNewLabels issue.2 addLabels removeLabels
  if r.2 then
    if dryRun then
      (acc.1,
       acc.2.1 ++ ["DRY RUN: I would update issue " ++ issue.1 ++
         " with labels: " ++ String.intercalate ", " r.1],
       acc.2.2 + 1)
    else
      (acc.1 ++ [(issue.1, r.1)],
       acc.2.1 ++ ["Update issue " ++ issue.1 ++ " with labels: " ++
         String.intercalate ", " r.1],
       acc.2.2 + 1)
  else acc

/-- A full run of `jira_edit_labels.main`.  `issues` is the sequence of
issue records (key, labels) that the chained `--key`/`--jql` iteration
would deliver.  After a successful prelude the connection URL is built as
`"https://" + args.atlassian_domain` (line 82) — from the CLI argument
alone, so a missing CLI domain raises `TypeError` (str + None) before any
issue is processed, even when the configuration file supplied a domain. -/
def editLabelsRun (cfg : ConfigFile) (cliDomain : Option String)
    (addLabels removeLabels : List String) (dryRun : Bool)
    (issues : List (String × List String)) : RunResult :=
  match editPrelude cfg cliDomain addLabels removeLabels with
  | .fatalExit m => .fatal 1 m [] 0
  | .crash m => .fatal 1 m [] 0
  | .ok _ _ _ =>
    match cliDomain with
    | none => .fatal 1 "TypeError: can only concatenate str (not NoneType) to str" [] 0
    | some _ =>
      let z := issues.foldl (editIssueStep addLabels removeLabels dryRun)
        ([], [], 0)
      .finished z.1 z.2.1 issues.length z.2.2

/-! ## The record wrapper model (`jira_download_issues.py`)

`PV` models the Python values that occur in decoded REST payloads and in
the tool's own data: JSON null is Python `None` (`pnone`), and the
`NOT_DOWNLOADED` sentinel object is `nd` (it never occurs in a payload but
does occur in `to_struct` output).  Dicts are association lists with
first-match lookup (`alookup`).  A Python operation that would raise
(attribute access on `None`/`NOT_DOWNLOADED`/non-dicts, iterating a
non-list, joining non-strings) is modelled as `Option.none`; iterating a
string (which in Python yields its characters) is also modelled as a
failure since no payload of interest does that. -/

mutual
inductive PV where
  | nd
  | pnone
  | pstr (s : String)
  | pint (n : Int)
  | pbool (b : Bool)
  | plist (xs : PVList)
  | pdict (fields : PVDict)
deriving DecidableEq

inductive PVList where
  | nil
  | cons (head : PV) (tail : PVList)
deriving DecidableEq

inductive PVDict where
  | nil
  | cons (key : String) (value : PV) (tail : PVDict)
deriving DecidableEq
end

/-- `dict.get(key)` on a decoded payload dict: first matching key. -/
def PVDict.lookup : PVDict → String → Option PV
  | .nil, _ => none
  | .cons k v rest, key => if k = key then some v else PVDict.lookup rest key

theorem PVDict.lookup_sizeOf : ∀ (d : PVDict) {k : String} {v : PV},
    PVDict.lookup d k = some v → sizeOf v < sizeOf (PV.pdict d)
  | .nil, k, v, h => by simp [PVDict.lookup] at h
  | .cons k' v' rest, k, v, h => by
    rw [PVDict.lookup] at h
    by_cases hk : k' = k
    · rw [if_pos hk] at h
      cases h
      simp only [PVDict.cons.sizeOf_spec, PV.pdict.sizeOf_spec]
      omega
    · rw [if_neg hk] at h
      have := PVDict.lookup_sizeOf rest h
      simp only [PVDict.cons.sizeOf_spec, PV.pdict.sizeOf_spec] at this ⊢
      omega

/-- `JiraComment`: the comment payload dict plus the wrapped author payload
(`None` when the `author` key is absent or null, mirroring
`create_object_from_value(JiraAuthor, "author")`). -/
structure CommentRec where
  author : Option PV
  data : PVDict
deriving DecidableEq

/-- The state of a constructed `JiraIssue`: the eagerly computed members of
`JiraIssue.__init__` (lines 367-380).  `Option` on wrapper members is the
`NOT_DOWNLOADED` marker (`none`) versus a constructed wrapper (`some`). -/
inductive IssueRec where
  | mk (key updated summary description created labels resolutiondate : PV)
      (parent : Option IssueRec)
      (resolution : Option PV)
      (comments : Option (List CommentRec))
      (status : Option PVDict)
      (priority reporter assignee issuetype : Option PV)
      (subtasks : List IssueRec)
      (attachment : List PV)

def IssueRec.key : IssueRec → PV
  | .mk k _ _ _ _ _ _ _ _ _ _ _ _ _ _ _ _ => k

def IssueRec.comments : IssueRec → Option (List CommentRec)
  | .mk _ _ _ _ _ _ _ _ _ c _ _ _ _ _ _ _ => c

/-- `self.get_field(name)`: `self._fields.get(name, NOT_DOWNLOADED)`. -/
def getField (fs : PVDict) (k : String) : PV :=
  (fs.lookup k).getD PV.nd

/-- `create_object_from_field(cls, key)` (lines 382-386) for wrapper
classes whose constructor merely stores the payload (`JiraAuthor`,
`JiraResolution`, `JiraPriority`, `JiraIssueType`): the value is wrapped
only when it is neither `NOT_DOWNLOADED` (absent key) nor `None`; both of
those yield the `NOT_DOWNLOADED` default, here `none`. -/
def objectFromField (fs : PVDict) (k : String) : Option PV :=
  match fs.lookup k with
  | none => none
  | some PV.pnone => none
  | some v => some v

/-- `create_object_from_field(JiraStatus, "status")`: `JiraStatus.__init__`
reads `statusCategory` from its payload, so a non-dict payload raises
(outer `none`); an absent or null field gives the marker (inner `none`). -/
def statusFromField (fs : PVDict) : Option (Option PVDict) :=
  match fs.lookup "status" with
  | none => some none
  | some PV.pnone => some none
  | some (PV.pdict sd) => some (some sd)
  | some _ => none

/-- `JiraComment.__init__`: the payload must be a dict (the constructor
reads `author` via `get_value`); an absent or null author stays `None`. -/
def commentOf (c : PV) : Option CommentRec :=
  match c with
  | PV.pdict cd =>
    match cd.lookup "author" with
    | none => some { author := none, data := cd }
    | some PV.pnone => some { author := none, data := cd }
    | some a => some { author := some a, data := cd }
  | _ => none

def commentsOfList : PVList → Option (List CommentRec)
  | .nil => some []
  | .cons c rest =>
    match commentOf c, commentsOfList rest with
    | some r, some rs => some (r :: rs)
    | _, _ => none

/-- `create_object_from_field(JiraCommentList, "comment")`:
`JiraCommentList.__init__` iterates `data.get("comments", [])`, wrapping
each entry eagerly; the comment field must be a dict and the `comments`
entry, when present, a list. -/
def commentsFromField (fs : PVDict) : Option (Option (List CommentRec)) :=
  match fs.lookup "comment" with
  | none => some none
  | some PV.pnone => some none
  | some (PV.pdict cd) =>
    match cd.lookup "comments" with
    | none => some (some [])
    | some (PV.plist xs) => (commentsOfList xs).map some
    | some _ => none
  | some _ => none

/-- `[JiraAttachment(c) for c in self.get_field("attachment", [])]`: each
element must be a dict (`JiraAttachment.__init__` reads `author`). -/
def attachmentsOf : PVList → Option (List PV)
  | .nil => some []
  | .cons (PV.pdict ad) rest => (attachmentsOf rest).map (PV.pdict ad :: ·)
  | .cons _ _ => none

def attachmentsFromField (fs : PVDict) : Option (List PV) :=
  match fs.lookup "attachment" with
  | none => some []
  | some (PV.plist xs) => attachmentsOf xs
  | some _ => none

mutual
/-- `JiraIssue.__init__` (lines 367-380): the payload must be a dict whose
`fields` entry is a dict (every constructor immediately calls `get_field`
on it); the parent issue and each subtask are recursively constructed
`JiraIssue`s. -/
def constructIssue (data : PV) : Option IssueRec :=
  match data with
  | PV.pdict ds =>
    match hf : ds.lookup "fields" with
    | some (PV.pdict fs) =>
      (match hp : fs.lookup "parent" with
       | none => some none
       | some PV.pnone => some none
       | some v => (constructIssue v).map some) >>= fun parent =>
      commentsFromField fs >>= fun comments =>
      statusFromField fs >>= fun status =>
      (match hs : fs.lookup "subtasks" with
       | none => some []
       | some (PV.plist xs) => constructIssueList xs
       | some _ => none) >>= fun subtasks =>
      attachmentsFromField fs >>= fun attachment =>
      some (IssueRec.mk
        ((ds.lookup "key").getD PV.pnone)
        ((ds.lookup "updated").getD PV.pnone)
        (getField fs "summary") (getField fs "description")
        (getField fs "created") (getField fs "labels")
        (getField fs "resolutiondate")
        parent
        (objectFromField fs "resolution")
        comments status
        (objectFromField fs "priority") (objectFromField fs "reporter")
        (objectFromField fs "assignee") (objectFromField fs "issuetype")
        subtasks attachment)
    | _ => none
  | _ => none
termination_by sizeOf data
decreasing_by
  · have h1 := PVDict.lookup_sizeOf _ hp
    have h2 := PVDict.lookup_sizeOf _ hf
    omega
  · have h2 := PVDict.lookup_sizeOf _ hf
    have h3 := PVDict.lookup_sizeOf _ hs
    simp only [PV.plist.sizeOf_spec] at h3
    omega

/-- `[JiraIssue(c) for c in self.get_field("subtasks", [])]`. -/
def constructIssueList (xs : PVList) : Option (List IssueRec) :=
  match xs with
  | .nil => some []
  | .cons c rest =>
    match constructIssue c, constructIssueList rest with
    | some r, some rs => some (r :: rs)
    | _, _ => none
termination_by sizeOf xs
decreasing_by
  all_goals simp only [PVList.cons.sizeOf_spec]
  all_goals omega
end

/-- Convenience constructor for concrete payload dicts. -/
def PVDict.ofList : List (String × PV) → PVDict
  | [] => .nil
  | (k, v) :: rest => .cons k v (PVDict.ofList rest)

/-- Convenience constructor for concrete payload lists. -/
def PVList.ofList : List PV → PVList
  | [] => .nil
  | v :: rest => .cons v (PVList.ofList rest)

/-! ### Rendering values as Python `str()` / `repr()` does

`str()` of the values appearing in rendered slots: strings render as
themselves, `None` as `"None"`, the `NOT_DOWNLOADED` sentinel via its
`__str__` as `"<not downloaded>"`, booleans capitalized, integers as
digits.  Containers render via `repr` of their elements; string quoting
is simplified (Python's escaping inside quotes is not reproduced — no
claim depends on container rendering). -/

mutual
def pyStr : PV → String
  | PV.nd => "<not downloaded>"
  | PV.pnone => "None"
  | PV.pstr s => s
  | PV.pint n => toString n
  | PV.pbool b => if b then "True" else "False"
  | PV.plist xs => "[" ++ String.intercalate ", " (pyReprList xs) ++ "]"
  | PV.pdict fs => "\x7b" ++ String.intercalate ", " (pyReprDict fs) ++ "\x7d"

def pyRepr : PV → String
  | PV.nd => "NOT_DOWNLOADED"
  | PV.pnone => "None"
  | PV.pstr s => "\x27" ++ s ++ "\x27"
  | PV.pint n => toString n
  | PV.pbool b => if b then "True" else "False"
  | PV.plist xs => "[" ++ String.intercalate ", " (pyReprList xs) ++ "]"
  | PV.pdict fs => "\x7b" ++ String.intercalate ", " (pyReprDict fs) ++ "\x7d"

def pyReprList : PVList → List String
  | PVList.nil => []
  | PVList.cons x xs => pyRepr x :: pyReprList xs

def pyReprDict : PVDict → List String
  | PVDict.nil => []
  | PVDict.cons k v xs => ("\x27" ++ k ++ "\x27: " ++ pyRepr v) :: pyReprDict xs
end

/-! ### `to_text` (lines 486-523) and helpers -/

/-- `JiraComment.to_text` (lines 227-234): author text is the raw
`displayName` (rendered by `format`), or `"<unknown author>"` when there is
no author object; the separator line repeats `-` for the length of
`"{author} {created}"`. -/
def commentToText (c : CommentRec) : Option String :=
  (match c.author with
   | none => some "<unknown author>"
   | some (PV.pdict ad) => some (pyStr ((ad.lookup "displayName").getD PV.pnone))
   | some _ => none) >>= fun authorStr =>
  let authorAndDate := authorStr ++ " " ++
    pyStr ((c.data.lookup "created").getD PV.pnone)
  let sep := String.mk (List.replicate authorAndDate.length '-')
  some (sep ++ "\n" ++ authorAndDate ++ "\n" ++ sep ++ "\n" ++
    pyStr ((c.data.lookup "body").getD PV.pnone) ++ "\n")

def commentTextsOf : List CommentRec → Option (List String)
  | [] => some []
  | c :: rest =>
    match commentToText c, commentTextsOf rest with
    | some t, some ts => some (t :: ts)
    | _, _ => none

/-- `"{obj.name}"` for a named wrapper (`JiraIssueType`, `JiraPriority`):
attribute access on the `NOT_DOWNLOADED` sentinel or a non-dict payload
raises `AttributeError`; otherwise `get_value("name", None)` is rendered. -/
def namedObjName (o : Option PV) : Option String :=
  match o with
  | none => none
  | some (PV.pdict d) => some (pyStr ((d.lookup "name").getD PV.pnone))
  | some _ => none

/-- `"{status.name}"`: the status payload dict was validated at
construction time; the marker still raises `AttributeError`. -/
def statusName (o : Option PVDict) : Option String :=
  match o with
  | none => none
  | some sd => some (pyStr ((sd.lookup "name").getD PV.pnone))

/-- `self.reporter.display_name if have_data(self.reporter) else "Unknown"`
(and the same for assignee): the marker gives the fallback; a non-dict
payload raises on the attribute access. -/
def authorDisplay (o : Option PV) (fallback : String) : Option String :=
  match o with
  | none => some fallback
  | some (PV.pdict d) => some (pyStr ((d.lookup "displayName").getD PV.pnone))
  | some _ => none

/-- `self.resolution_object.name if have_data(...) else "Unresolved"`. -/
def resolutionName (o : Option PV) : Option String :=
  match o with
  | none => some "Unresolved"
  | some (PV.pdict d) => some (pyStr ((d.lookup "name").getD PV.pnone))
  | some _ => none

/-- `", ".join(...)`: every joined element must be a string. -/
def strListOf : List PV → Option (List String)
  | [] => some []
  | PV.pstr s :: rest => (strListOf rest).map (s :: ·)
  | _ => none

def pvListToList : PVList → List PV
  | PVList.nil => []
  | PVList.cons x xs => x :: pvListToList xs

/-- `", ".join(self.labels)`: the labels field must be a list of strings
(the `NOT_DOWNLOADED` marker, `None` and non-lists raise `TypeError`). -/
def labelsText (labels : PV) : Option String :=
  match labels with
  | PV.plist xs => (strListOf (pvListToList xs)).map (String.intercalate ", ")
  | _ => none

/-- `", ".join(s.key for s in subtasks)`: each subtask key must be a
string. -/
def subtaskKeys : List IssueRec → Option (List String)
  | [] => some []
  | r :: rest =>
    match r.key with
    | PV.pstr s => (subtaskKeys rest).map (s :: ·)
    | _ => none

/-- `JiraIssue.to_text` (lines 486-523), assembled exactly as the format
template does. -/
def issueToText : IssueRec → Option String
  | IssueRec.mk key updated summary description created labels _resolutiondate
      _parent resolution comments status priority reporter assignee issuetype
      subtasks _attachment =>
    (if subtasks.isEmpty then some "none"
     else (subtaskKeys subtasks).map (String.intercalate ", ")) >>=
      fun subtasksStr =>
    namedObjName issuetype >>= fun typeStr =>
    statusName status >>= fun statusStr =>
    namedObjName priority >>= fun priorityStr =>
    authorDisplay reporter "Unknown" >>= fun reporterStr =>
    authorDisplay assignee "Unknown" >>= fun assigneeStr =>
    resolutionName resolution >>= fun resolutionStr =>
    labelsText labels >>= fun labelsStr =>
    (match comments with
     | none => some "<not downloaded>"
     | some cs => (commentTextsOf cs).map (String.intercalate "\n")) >>=
      fun commentsStr =>
    some ("Issue: " ++ pyStr key ++
      "\nType: " ++ typeStr ++
      "\nStatus: " ++ statusStr ++
      "\nPriority: " ++ priorityStr ++
      "\nReporter: " ++ reporterStr ++
      "\nAssignee: " ++ assigneeStr ++
      "\nResolution: " ++ resolutionStr ++
      "\nSubtasks: " ++ subtasksStr ++
      "\nSummary: " ++ pyStr summary ++
      "\nDescription:\n\n" ++ pyStr description ++
      "\n---\nLabels: " ++ labelsStr ++
      "\nCreated: " ++ pyStr created ++
      "\nUpdated: " ++ pyStr updated ++
      "\nComments:\n\n" ++ commentsStr)

/-! ### `to_struct` (lines 467-484) and helpers -/

/-- `JiraComment.to_struct` (lines 221-225): body/created/updated, plus the
author's `to_struct` (a dict with `displayName`) when an author object is
present.  The author payload must be a dict for `display_name`. -/
def commentToStruct (c : CommentRec) : Option (List (String × PV)) :=
  let base := [("body", (c.data.lookup "body").getD PV.pnone),
    ("created", (c.data.lookup "created").getD PV.pnone),
    ("updated", (c.data.lookup "updated").getD PV.pnone)]
  match c.author with
  | none => some base
  | some (PV.pdict ad) =>
    some (base ++ [("author",
      PV.pdict (PVDict.ofList
        [("displayName", (ad.lookup "displayName").getD PV.pnone)]))])
  | some _ => none

/-- `JiraCommentList.to_struct` (lines 185-186): the structs of the wrapped
comments. -/
def commentStructsOf : List CommentRec → Option (List PV)
  | [] => some []
  | c :: rest =>
    match commentToStruct c, commentStructsOf rest with
    | some s, some ss => some (PV.pdict (PVDict.ofList s) :: ss)
    | _, _ => none

/-- `JiraResolution.to_struct` (lines 249-254), executed only when
`have_data(self.resolution_object)` holds; the payload must be a dict. -/
def resolutionStruct (o : Option PV) : Option (Option PV) :=
  match o with
  | none => some none
  | some (PV.pdict rd) =>
    some (some (PV.pdict (PVDict.ofList
      [("type", PV.pstr "JiraResolution"),
       ("description", (rd.lookup "description").getD PV.pnone),
       ("name", (rd.lookup "name").getD PV.pnone)])))
  | some _ => none

/-- `JiraIssue.to_struct` (lines 467-484): the base entries in insertion
order, then `parent` (the parent's key), `resolution` and `comments`, each
present exactly when `have_data` holds for the member. -/
def issueToStruct : IssueRec → Option (List (String × PV))
  | IssueRec.mk key updated summary description created labels resolutiondate
      parent resolution comments _status _priority _reporter _assignee
      _issuetype _subtasks _attachment =>
    let base := [("type", PV.pstr "JiraIssue"), ("key", key),
      ("summary", summary), ("description", description),
      ("created", created), ("labels", labels), ("updated", updated),
      ("resolutiondate", resolutiondate)]
    let withParent := base ++ (match parent with
      | some p => [("parent", p.key)]
      | none => [])
    resolutionStruct resolution >>= fun resS =>
    let withRes := withParent ++ (match resS with
      | some rv => [("resolution", rv)]
      | none => [])
    match comments with
    | none => some withRes
    | some cs =>
      (commentStructsOf cs).map
        (fun ss => withRes ++ [("comments", PV.plist (PVList.ofList ss))])

/-! ### `JiraRestObject.__eq__` (lines 70-71) -/

/-- A wrapper object: the concrete subclass (`JiraIssue`, `JiraAuthor`,
...) and the wrapped payload dict.  `__eq__` ignores the subclass. -/
structure JRestObj where
  subclass : String
  data : PVDict

/-- `self_url` (lines 63-65): `get_value("self")`, i.e. `None` when the key
is absent. -/
def JRestObj.self_url (o : JRestObj) : PV :=
  (o.data.lookup "self").getD PV.pnone

/-- `__eq__` (lines 70-71): both operands being wrapper objects, the
`isinstance` test holds and equality is equality of the `self` URLs. -/
def jiraRestObjEq (a b : JRestObj) : Bool :=
  a.self_url == b.self_url

/-! ## Further helper lemmas -/

theorem computeNewLabels_nochange (oldLabels adds rems : List String)
    (ha : ∀ a ∈ adds, a ∈ oldLabels) (hr : ∀ r ∈ rems, r ∉ oldLabels) :
    computeNewLabels oldLabels adds rems = (oldLabels, false) := by
  simp only [computeNewLabels]
  rw [addLoop_nochange oldLabels adds oldLabels false ha]
  exact removeLoop_nochange oldLabels rems oldLabels false hr

theorem append_ne_empty (a b : String) (h : a.length ≠ 0) : a ++ b ≠ "" := by
  intro he
  have hl := congrArg String.length he
  rw [String.length_append] at hl
  have h0 : ("" : String).length = 0 := rfl
  omega

theorem cfgGetFallbackNone_error (d : List (String × String))
    (s : List (String × List (String × String))) (sect key m : String)
    (h : cfgGetFallbackNone d s sect key = Except.error m) :
    m = "NoSectionError: " ++ sect := by
  unfold cfgGetFallbackNone at h
  cases hs : alookup s sect with
  | none =>
    simp only [hs] at h
    injection h with h1
    exact h1.symm
  | some sec =>
    simp only [hs] at h
    cases hk : alookup sec key with
    | some v => simp only [hk] at h; exact Except.noConfusion h
    | none => simp only [hk] at h; exact Except.noConfusion h

theorem resolveDomain_ok (d : List (String × String))
    (cliDomain : Option String) (dom : String)
    (h : resolveDomain d cliDomain = Except.ok dom) :
    cliDomain = some dom ∨ (cliDomain = none ∧ alookup d "domain" = some dom) := by
  unfold resolveDomain at h
  cases cliDomain with
  | some d0 => injection h with h1; exact Or.inl (by rw [h1])
  | none =>
    cases hd : alookup d "domain" with
    | some d1 =>
      simp only [hd] at h
      injection h with h1
      exact Or.inr ⟨rfl, by rw [h1]⟩
    | none => simp only [hd] at h; exact Except.noConfusion h

theorem resolveDomain_error (d : List (String × String))
    (cliDomain : Option String) (m : String)
    (h : resolveDomain d cliDomain = Except.error m) :
    m = "NoOptionError: no option domain in section DEFAULT" := by
  unfold resolveDomain at h
  cases cliDomain with
  | some d0 => exact Except.noConfusion h
  | none =>
    cases hd : alookup d "domain" with
    | some d1 => simp only [hd] at h; exact Except.noConfusion h
    | none =>
      simp only [hd] at h
      injection h with h1
      exact h1.symm

theorem editPrelude_not_ok (cfg : ConfigFile) (cliDomain : Option String)
    (a r : List String)
    (h : (editPrelude cfg cliDomain a r).isOk = false) :
    (editPrelude cfg cliDomain a r).exitCode = 1 ∧
      (editPrelude cfg cliDomain a r).stderrMsg ≠ "" := by
  cases cfg with
  | missing => exact ⟨rfl, by rw [editPrelude]; decide⟩
  | invalid => exact ⟨rfl, by rw [editPrelude]; decide⟩
  | parsed d s =>
    rw [editPrelude] at h ⊢
    cases hdom : resolveDomain d cliDomain with
    | error m =>
      simp only [hdom]
      rw [resolveDomain_error d cliDomain m hdom]
      exact ⟨rfl, by decide⟩
    | ok dom =>
      simp only [hdom] at h ⊢
      try dsimp only at h
      try dsimp only
      cases hu : cfgGetFallbackNone d s dom "user" with
      | error m =>
        simp only [hu]
        rw [cfgGetFallbackNone_error d s dom "user" m hu]
        exact ⟨rfl, append_ne_empty _ _ (by decide)⟩
      | ok uo =>
        simp only [hu] at h ⊢
        try dsimp only at h
        try dsimp only
        cases uo with
        | none =>
          refine ⟨rfl, ?_⟩
          show ("Error: user is not specified in configuration file" : String) ≠ ""
          decide
        | some u =>
          cases ht : cfgGetFallbackNone d s dom "api_token" with
          | error m =>
            simp only [ht]
            rw [cfgGetFallbackNone_error d s dom "api_token" m ht]
            exact ⟨rfl, append_ne_empty _ _ (by decide)⟩
          | ok tok =>
            simp only [ht] at h ⊢
            try dsimp only at h
            try dsimp only
            cases tok with
            | none =>
              refine ⟨rfl, ?_⟩
              show ("Error: api_token is not specified in configuration file" : String) ≠ ""
              decide
            | some t =>
              try dsimp only at h
              try dsimp only
              by_cases hl : (a.isEmpty && r.isEmpty) = true
              · rw [if_pos hl]
                refine ⟨rfl, ?_⟩
                show ("Error: no labels specified for adding and/or removing" : String) ≠ ""
                decide
              · rw [if_neg hl] at h
                simp [EditPrelude.isOk] at h

theorem editPrelude_ok_inversion (cfg : ConfigFile) (cliDomain : Option String)
    (a r : List String)
    (h : (editPrelude cfg cliDomain a r).isOk = true) :
    ∃ d s dom, cfg = ConfigFile.parsed d s ∧
      (cliDomain = some dom ∨ (cliDomain = none ∧ alookup d "domain" = some dom)) ∧
      (∃ u, cfgGetFallbackNone d s dom "user" = Except.ok (some u)) ∧
      (∃ t, cfgGetFallbackNone d s dom "api_token" = Except.ok (some t)) ∧
      (a.isEmpty && r.isEmpty) = false := by
  cases cfg with
  | missing => rw [editPrelude] at h; exact absurd h (by decide)
  | invalid => rw [editPrelude] at h; exact absurd h (by decide)
  | parsed d s =>
    rw [editPrelude] at h
    cases hdom : resolveDomain d cliDomain with
    | error m => simp only [hdom] at h; simp [EditPrelude.isOk] at h
    | ok dom =>
      simp only [hdom] at h
      try dsimp only at h
      cases hu : cfgGetFallbackNone d s dom "user" with
      | error m => simp only [hu] at h; simp [EditPrelude.isOk] at h
      | ok uo =>
        simp only [hu] at h
        try dsimp only at h
        cases uo with
        | none => simp [EditPrelude.isOk] at h
        | some u =>
          cases ht : cfgGetFallbackNone d s dom "api_token" with
          | error m => simp only [ht] at h; simp [EditPrelude.isOk] at h
          | ok tok =>
            simp only [ht] at h
            try dsimp only at h
            cases tok with
            | none => simp [EditPrelude.isOk] at h
            | some t =>
              try dsimp only at h
              by_cases hl : (a.isEmpty && r.isEmpty) = true
              · rw [if_pos hl] at h; simp [EditPrelude.isOk] at h
              · exact ⟨d, s, dom, rfl, resolveDomain_ok d cliDomain dom hdom,
                  ⟨u, hu⟩, ⟨t, ht⟩, by simpa using hl⟩

theorem downPrelude_not_ok (cfg : ConfigFile) (cliDomain cliJql : Option String)
    (h : (downPrelude cfg cliDomain cliJql).isOk = false) :
    (downPrelude cfg cliDomain cliJql).exitCode = 1 ∧
      (downPrelude cfg cliDomain cliJql).stderrMsg ≠ "" := by
  cases cfg with
  | missing => exact ⟨rfl, by rw [downPrelude]; decide⟩
  | invalid => exact ⟨rfl, by rw [downPrelude]; decide⟩
  | parsed d s =>
    rw [downPrelude] at h ⊢
    cases hdom : resolveDomain d cliDomain with
    | error m =>
      simp only [hdom]
      rw [resolveDomain_error d cliDomain m hdom]
      exact ⟨rfl, by decide⟩
    | ok dom =>
      simp only [hdom] at h ⊢
      try dsimp only at h
      try dsimp only
      cases hu : cfgGetFallbackNone d s dom "user" with
      | error m =>
        simp only [hu]
        rw [cfgGetFallbackNone_error d s dom "user" m hu]
        exact ⟨rfl, append_ne_empty _ _ (by decide)⟩
      | ok uo =>
        simp only [hu] at h ⊢
        try dsimp only at h
        try dsimp only
        cases uo with
        | none =>
          refine ⟨rfl, ?_⟩
          show ("Error: user is not specified in configuration file" : String) ≠ ""
          decide
        | some u =>
          cases ht : cfgGetFallbackNone d s dom "api_token" with
          | error m =>
            simp only [ht]
            rw [cfgGetFallbackNone_error d s dom "api_token" m ht]
            exact ⟨rfl, append_ne_empty _ _ (by decide)⟩
          | ok tok =>
            simp only [ht] at h ⊢
            try dsimp only at h
            try dsimp only
            cases tok with
            | none =>
              refine ⟨rfl, ?_⟩
              show ("Error: api_token is not specified in configuration file" : String) ≠ ""
              decide
            | some t =>
              try dsimp only at h
              try dsimp only
              cases cliJql with
              | some j => simp [DownPrelude.isOk] at h
              | none =>
                cases hj : alookup d "jql" with
                | some j => simp only [hj] at h; simp [DownPrelude.isOk] at h
                | none =>
                  simp only [hj]
                  refine ⟨rfl, ?_⟩
                  show ("NoOptionError: no option jql in section DEFAULT" : String) ≠ ""
                  decide

theorem downPrelude_ok_inversion (cfg : ConfigFile)
    (cliDomain cliJql : Option String)
    (h : (downPrelude cfg cliDomain cliJql).isOk = true) :
    ∃ d s dom, cfg = ConfigFile.parsed d s ∧
      (cliDomain = some dom ∨ (cliDomain = none ∧ alookup d "domain" = some dom)) ∧
      (∃ u, cfgGetFallbackNone d s dom "user" = Except.ok (some u)) ∧
      (∃ t, cfgGetFallbackNone d s dom "api_token" = Except.ok (some t)) := by
  cases cfg with
  | missing => rw [downPrelude] at h; exact absurd h (by decide)
  | invalid => rw [downPrelude] at h; exact absurd h (by decide)
  | parsed d s =>
    rw [downPrelude] at h
    cases hdom : resolveDomain d cliDomain with
    | error m => simp only [hdom] at h; simp [DownPrelude.isOk] at h
    | ok dom =>
      simp only [hdom] at h
      try dsimp only at h
      cases hu : cfgGetFallbackNone d s dom "user" with
      | error m => simp only [hu] at h; simp [DownPrelude.isOk] at h
      | ok uo =>
        simp only [hu] at h
        try dsimp only at h
        cases uo with
        | none => simp [DownPrelude.isOk] at h
        | some u =>
          cases ht : cfgGetFallbackNone d s dom "api_token" with
          | error m => simp only [ht] at h; simp [DownPrelude.isOk] at h
          | ok tok =>
            simp only [ht] at h
            try dsimp only at h
            cases tok with
            | none => simp [DownPrelude.isOk] at h
            | some t =>
              exact ⟨d, s, dom, rfl, resolveDomain_ok d cliDomain dom hdom,
                ⟨u, hu⟩, ⟨t, ht⟩⟩

theorem editFold_dry (adds rems : List String) :
    ∀ (issues : List (String × List String))
      (calls : List (String × List String)) (logs : List String) (n : Nat),
      (issues.foldl (editIssueStep adds rems true) (calls, logs, n)).1 =
        calls := by
  intro issues
  induction issues with
  | nil => intro calls logs n; rfl
  | cons i rest ih =>
    intro calls logs n
    rw [List.foldl_cons]
    by_cases hflag : (computeNewLabels i.2 adds rems).2 = true
    · simp only [editIssueStep, hflag, if_true]
      exact ih _ _ _
    · simp only [editIssueStep, if_neg hflag]
      exact ih _ _ _

theorem prelude_domain_unique (d : List (String × String))
    (cliDomain : Option String) (dom dom2 : String)
    (h1 : cliDomain = some dom ∨
      (cliDomain = none ∧ alookup d "domain" = some dom))
    (h2 : cliDomain = some dom2 ∨
      (cliDomain = none ∧ alookup d "domain" = some dom2)) : dom = dom2 := by
  rcases h1 with h1 | ⟨hn1, ha⟩
  · rcases h2 with h2 | ⟨hn2, _⟩
    · exact Option.some.inj (h1.symm.trans h2)
    · exact Option.noConfusion (hn2.symm.trans h1)
  · rcases h2 with h2 | ⟨_, hb⟩
    · exact Option.noConfusion (hn1.symm.trans h2)
    · exact Option.some.inj (ha.symm.trans hb)

theorem editPrelude_domain_missing (d : List (String × String))
    (s : List (String × List (String × String))) (a r : List String)
    (hdd : alookup d "domain" = none) :
    (editPrelude (ConfigFile.parsed d s) none a r).isOk = false := by
  have hre : resolveDomain d none =
      Except.error "NoOptionError: no option domain in section DEFAULT" := by
    unfold resolveDomain; rw [hdd]
  rw [editPrelude, hre]
  rfl

theorem downPrelude_domain_missing (d : List (String × String))
    (s : List (String × List (String × String))) (cliJql : Option String)
    (hdd : alookup d "domain" = none) :
    (downPrelude (ConfigFile.parsed d s) none cliJql).isOk = false := by
  have hre : resolveDomain d none =
      Except.error "NoOptionError: no option domain in section DEFAULT" := by
    unfold resolveDomain; rw [hdd]
  rw [downPrelude, hre]
  rfl

theorem editPrelude_user_missing (d : List (String × String))
    (s : List (String × List (String × String))) (dom : String)
    (cliDomain : Option String) (a r : List String)
    (hdom : cliDomain = some dom ∨
      (cliDomain = none ∧ alookup d "domain" = some dom))
    (hu : cfgGetFallbackNone d s dom "user" = Except.ok none) :
    (editPrelude (ConfigFile.parsed d s) cliDomain a r).isOk = false := by
  cases hIs : (editPrelude (ConfigFile.parsed d s) cliDomain a r).isOk with
  | false => rfl
  | true =>
    exfalso
    obtain ⟨d2, s2, dom2, heq, hdom2, ⟨u, hu2⟩, _, _⟩ :=
      editPrelude_ok_inversion _ _ _ _ hIs
    injection heq with hde hse
    subst hde; subst hse
    have hd : dom = dom2 := prelude_domain_unique d cliDomain dom dom2 hdom hdom2
    subst hd
    have := hu.symm.trans hu2
    injection this with h3
    exact Option.noConfusion h3

theorem editPrelude_token_missing (d : List (String × String))
    (s : List (String × List (String × String))) (dom : String)
    (cliDomain : Option String) (a r : List String)
    (hdom : cliDomain = some dom ∨
      (cliDomain = none ∧ alookup d "domain" = some dom))
    (ht : cfgGetFallbackNone d s dom "api_token" = Except.ok none) :
    (editPrelude (ConfigFile.parsed d s) cliDomain a r).isOk = false := by
  cases hIs : (editPrelude (ConfigFile.parsed d s) cliDomain a r).isOk with
  | false => rfl
  | true =>
    exfalso
    obtain ⟨d2, s2, dom2, heq, hdom2, _, ⟨t, ht2⟩, _⟩ :=
      editPrelude_ok_inversion _ _ _ _ hIs
    injection heq with hde hse
    subst hde; subst hse
    have hd : dom = dom2 := prelude_domain_unique d cliDomain dom dom2 hdom hdom2
    subst hd
    have := ht.symm.trans ht2
    injection this with h3
    exact Option.noConfusion h3

theorem downPrelude_user_missing (d : List (String × String))
    (s : List (String × List (String × String))) (dom : String)
    (cliDomain cliJql : Option String)
    (hdom : cliDomain = some dom ∨
      (cliDomain = none ∧ alookup d "domain" = some dom))
    (hu : cfgGetFallbackNone d s dom "user" = Except.ok none) :
    (downPrelude (ConfigFile.parsed d s) cliDomain cliJql).isOk = false := by
  cases hIs : (downPrelude (ConfigFile.parsed d s) cliDomain cliJql).isOk with
  | false => rfl
  | true =>
    exfalso
    obtain ⟨d2, s2, dom2, heq, hdom2, ⟨u, hu2⟩, _⟩ :=
      downPrelude_ok_inversion _ _ _ hIs
    injection heq with hde hse
    subst hde; subst hse
    have hd : dom = dom2 := prelude_domain_unique d cliDomain dom dom2 hdom hdom2
    subst hd
    have := hu.symm.trans hu2
    injection this with h3
    exact Option.noConfusion h3

theorem downPrelude_token_missing (d : List (String × String))
    (s : List (String × List (String × String))) (dom : String)
    (cliDomain cliJql : Option String)
    (hdom : cliDomain = some dom ∨
      (cliDomain = none ∧ alookup d "domain" = some dom))
    (ht : cfgGetFallbackNone d s dom "api_token" = Except.ok none) :
    (downPrelude (ConfigFile.parsed d s) cliDomain cliJql).isOk = false := by
  cases hIs : (downPrelude (ConfigFile.parsed d s) cliDomain cliJql).isOk with
  | false => rfl
  | true =>
    exfalso
    obtain ⟨d2, s2, dom2, heq, hdom2, _, ⟨t, ht2⟩⟩ :=
      downPrelude_ok_inversion _ _ _ hIs
    injection heq with hde hse
    subst hde; subst hse
    have hd : dom = dom2 := prelude_domain_unique d cliDomain dom dom2 hdom hdom2
    subst hd
    have := ht.symm.trans ht2
    injection this with h3
    exact Option.noConfusion h3

theorem editPrelude_no_labels (cfg : ConfigFile) (cliDomain : Option String) :
    (editPrelude cfg cliDomain [] []).isOk = false := by
  cases hIs : (editPrelude cfg cliDomain [] []).isOk with
  | false => rfl
  | true =>
    exfalso
    obtain ⟨d2, s2, dom2, _, _, _, _, hlab⟩ :=
      editPrelude_ok_inversion _ _ _ _ hIs
    exact absurd hlab (by decide)

theorem editLabelsRun_prelude_fatal (cfg : ConfigFile)
    (cliDomain : Option String) (a r : List String) (dry : Bool)
    (issues : List (String × List String))
    (h : (editPrelude cfg cliDomain a r).isOk = false) :
    (editLabelsRun cfg cliDomain a r dry issues).updateCalls = [] ∧
      (editLabelsRun cfg cliDomain a r dry issues).processed = 0 := by
  cases hp : editPrelude cfg cliDomain a r with
  | fatalExit m => rw [editLabelsRun.eq_def, hp]; exact ⟨rfl, rfl⟩
  | crash m => rw [editLabelsRun.eq_def, hp]; exact ⟨rfl, rfl⟩
  | ok dom u t => rw [hp] at h; simp [EditPrelude.isOk] at h

/-! # The claims -/

/-- C1, counterexample: the claim asserts that a label occurring in both
the add and the remove list is absent from the computed list, in
particular when absent from the initial list.  With no initial labels,
add `["c"]`, remove `["c"]`, the computed list is `["c"]`: the remove loop
requires membership in the *original* label set (line 103), so the freshly
added label is not removed. -/
theorem c1_counterexample :
    (computeNewLabels [] ["c"] ["c"]).1 = ["c"] ∧
      "c" ∈ (computeNewLabels [] ["c"] ["c"]).1 := by decide

/-- C1 (amended): for a label in both the add and the remove lists, remove
wins only when the label was originally present: if it occurs exactly once
in the initial list it ends up absent; if it is absent from the initial
list, the add appends it and the remove does not delete it (the removal
condition checks the original label set), so it ends up present. -/
theorem c1_amended (oldLabels adds rems : List String) (L : String)
    (hadd : L ∈ adds) (hrem : L ∈ rems) :
    (oldLabels.count L = 1 → L ∉ (computeNewLabels oldLabels adds rems).1) ∧
      (L ∉ oldLabels → L ∈ (computeNewLabels oldLabels adds rems).1) := by
  have hc := computeNewLabels_count oldLabels adds rems L
  constructor
  · intro h1
    have hmem : L ∈ oldLabels := List.count_pos_iff.mp (by omega)
    rw [if_pos hmem] at hc
    have h2 : 0 < rems.count L := List.count_pos_iff.mpr hrem
    exact List.count_eq_zero.mp (by omega)
  · intro h2
    rw [if_neg h2] at hc
    have h3 : 0 < adds.count L := List.count_pos_iff.mpr hadd
    exact List.count_pos_iff.mp (by omega)

/-- C1 witness: remove wins for a label present exactly once
(`["x"]`, add `["x"]`, remove `["x"]` gives a list without `"x"`), and add
wins for an absent label (`[]`, add `["c"]`, remove `["c"]` keeps `"c"`). -/
theorem c1_witness :
    "x" ∉ (computeNewLabels ["x"] ["x"] ["x"]).1 ∧
      "c" ∈ (computeNewLabels [] ["c"] ["c"]).1 :=
  ⟨(c1_amended ["x"] ["x"] ["x"] "x" (by decide) (by decide)).1 (by decide),
   (c1_amended [] ["c"] ["c"] "c" (by decide) (by decide)).2 (by decide)⟩

/-- C3, counterexample: the label computation is not idempotent.  With no
initial labels, add `["a"]`, remove `["a"]`: the first run produces
`["a"]` (the remove does not fire since `"a"` was not originally present);
the second run removes it, producing `[]`.  With initial labels
`["r", "r"]` and remove `["r"]`: the first run produces `["r"]`, the
second run `[]`. -/
theorem c3_counterexample :
    (computeNewLabels (computeNewLabels [] ["a"] ["a"]).1 ["a"] ["a"]).1 ≠
        (computeNewLabels [] ["a"] ["a"]).1 ∧
      (computeNewLabels (computeNewLabels ["r", "r"] [] ["r"]).1 [] ["r"]).1 ≠
        (computeNewLabels ["r", "r"] [] ["r"]).1 := by decide

/-- C3 (amended): the label computation is idempotent — and a second run
computes no change and would issue no update (`update_labels` stays
false) — provided the add and remove lists are disjoint and no remove
label occurs more than once in the initial list. -/
theorem c3_amended (oldLabels adds rems : List String)
    (hdisj : ∀ a ∈ adds, a ∉ rems)
    (hdup : ∀ r ∈ rems, oldLabels.count r ≤ 1) :
    computeNewLabels (computeNewLabels oldLabels adds rems).1 adds rems =
      ((computeNewLabels oldLabels adds rems).1, false) := by
  have ha : ∀ a ∈ adds, a ∈ (computeNewLabels oldLabels adds rems).1 := by
    intro a haa
    have hc := computeNewLabels_count oldLabels adds rems a
    have hra : rems.count a = 0 := List.count_eq_zero.mpr (hdisj a haa)
    by_cases hao : a ∈ oldLabels
    · rw [if_pos hao, hra] at hc
      have h1 : 0 < oldLabels.count a := List.count_pos_iff.mpr hao
      exact List.count_pos_iff.mp (by omega)
    · rw [if_neg hao] at hc
      have h1 : 0 < adds.count a := List.count_pos_iff.mpr haa
      exact List.count_pos_iff.mp (by omega)
  have hr : ∀ r ∈ rems, r ∉ (computeNewLabels oldLabels adds rems).1 := by
    intro r hrr
    have hc := computeNewLabels_count oldLabels adds rems r
    have hnra : r ∉ adds := fun hin => hdisj r hin hrr
    by_cases hro : r ∈ oldLabels
    · rw [if_pos hro] at hc
      have h1 : oldLabels.count r ≤ 1 := hdup r hrr
      have h2 : 0 < rems.count r := List.count_pos_iff.mpr hrr
      exact List.count_eq_zero.mp (by omega)
    · rw [if_neg hro] at hc
      have h1 : adds.count r = 0 := List.count_eq_zero.mpr hnra
      exact List.count_eq_zero.mp (by omega)
  exact computeNewLabels_nochange _ adds rems ha hr

/-- C3 witness: initial `["x"]`, add `["c"]`, remove `["x"]` (disjoint,
no duplicate): the second run returns the first run's list unchanged with
`update_labels = false`. -/
theorem c3_witness :
    computeNewLabels (computeNewLabels ["x"] ["c"] ["x"]).1 ["c"] ["x"] =
      ((computeNewLabels ["x"] ["c"] ["x"]).1, false) :=
  c3_amended ["x"] ["c"] ["x"] (by decide) (by decide)

/-- C4, counterexample: for 401 records and page size 200 the iterator
makes 4 requests, not 3: the loop (lines 530-545) only stops after a
request returns an empty page (`total` is never consulted), so after the
three pages of 200, 200 and 1 records a fourth, empty request is made. -/
theorem c4_counterexample :
    (jiraGetIssues (List.replicate 401 (0 : Nat))).2 = 4 ∧
      (jiraGetIssues (List.replicate 401 (0 : Nat))).2 ≠ 3 := by
  have h := jqlLoop_spec (List.replicate 401 (0 : Nat)) 401 0
    (by rw [List.length_replicate])
  rw [jiraGetIssues, h]
  norm_num

/-- C4 (amended): the paginated iterator yields exactly the server's
records, each exactly once, in server order, with no gap or duplicate at
page boundaries; for 401 records it yields all 401, delivered in 3
non-empty pages, but issues 4 requests in total — the final request
returns the empty page that terminates the loop. -/
theorem c4_amended {α : Type} (records : List α) :
    (jiraGetIssues records).1 = records ∧
      (records.length = 401 → (jiraGetIssues records).2 = 4) := by
  have h := jqlLoop_spec records records.length 0 (by omega)
  rw [jiraGetIssues, h]
  constructor
  · simp
  · intro h401
    rw [h401]

/-- C4 witness: a concrete server list of 401 records. -/
theorem c4_witness :
    (jiraGetIssues (List.replicate 401 (0 : Nat))).1 =
        List.replicate 401 (0 : Nat) ∧
      (jiraGetIssues (List.replicate 401 (0 : Nat))).2 = 4 :=
  ⟨(c4_amended (List.replicate 401 (0 : Nat))).1,
   (c4_amended (List.replicate 401 (0 : Nat))).2 (by rw [List.length_replicate])⟩

/-- C5, counterexample: with initial labels `["r", "r"]` and remove
`["r"]` the update flag is set (a removal fired) and an update would be
issued, yet the *set* of labels is unchanged: only one duplicate is
removed, so the new list is `["r"]` with the same underlying set. -/
theorem c5_counterexample :
    (computeNewLabels ["r", "r"] [] ["r"]).2 = true ∧
      (computeNewLabels ["r", "r"] [] ["r"]).1 = ["r"] ∧
      ((computeNewLabels ["r", "r"] [] ["r"]).1).toFinset =
        (["r", "r"] : List String).toFinset := by decide

/-- C5 (amended): the tool issues an update only if the computed new label
*list* differs from the original list (as a sequence); with duplicate
labels the underlying set may nonetheless be unchanged. -/
theorem c5_amended (oldLabels adds rems : List String)
    (h : (computeNewLabels oldLabels adds rems).2 = true) :
    (computeNewLabels oldLabels adds rems).1 ≠ oldLabels := by
  rcases computeNewLabels_flag oldLabels adds rems h with
    ⟨a, haa, hao⟩ | ⟨r, hrr, hro⟩
  · intro heq
    have hc := computeNewLabels_count oldLabels adds rems a
    rw [heq, if_neg hao] at hc
    have h1 : oldLabels.count a = 0 := List.count_eq_zero.mpr hao
    have h2 : 0 < adds.count a := List.count_pos_iff.mpr haa
    omega
  · intro heq
    have hc := computeNewLabels_count oldLabels adds rems r
    rw [heq, if_pos hro] at hc
    have h1 : 0 < oldLabels.count r := List.count_pos_iff.mpr hro
    have h2 : 0 < rems.count r := List.count_pos_iff.mpr hrr
    omega

/-- C5 witness: adding `"c"` to an empty label list sets the flag and the
computed list indeed differs from the original. -/
theorem c5_witness : (computeNewLabels [] ["c"] []).1 ≠ [] :=
  c5_amended [] ["c"] [] (by decide)

/-- C6: in dry-run mode, for an issue with labels `["a","b"]`, add `["c"]`
and remove `["a"]`, the computed new list is `["b","c"]`, no remote update
call is made, and the "DRY RUN: I would update ..." log line for the
intended change is emitted; in general a dry run performs the full
computation but never issues an update call. -/
theorem c6 :
    computeNewLabels ["a", "b"] ["c"] ["a"] = (["b", "c"], true) ∧
      editLabelsRun
        (ConfigFile.parsed [("domain", "example.com")]
          [("example.com", [("user", "u"), ("api_token", "t")])])
        (some "example.com") ["c"] ["a"] true [("K-1", ["a", "b"])] =
        RunResult.finished []
          ["DRY RUN: I would update issue K-1 with labels: b, c"] 1 1 ∧
      ∀ (cfg : ConfigFile) (cliDomain : Option String)
        (adds rems : List String) (issues : List (String × List String)),
        (editLabelsRun cfg cliDomain adds rems true issues).updateCalls =
          [] := by
  refine ⟨rfl, rfl, ?_⟩
  intro cfg cliDomain adds rems issues
  cases hp : editPrelude cfg cliDomain adds rems with
  | fatalExit m => rw [editLabelsRun.eq_def, hp]; rfl
  | crash m => rw [editLabelsRun.eq_def, hp]; rfl
  | ok dom u t =>
    rw [editLabelsRun.eq_def, hp]
    cases cliDomain with
    | none => rfl
    | some dcli =>
      exact editFold_dry adds rems issues [] [] 0

/-- C9: in either tool, a missing or unparsable configuration file, a
missing `domain` (with no CLI domain), a missing `user` or `api_token`,
and (label tool) an empty add and remove list each make the prelude fail;
every prelude failure terminates with exit code 1 and a message on
standard error, and a failed prelude of the label tool processes no issue
and issues no update call (the remote client is only created after the
prelude). -/
theorem c9 (cfg : ConfigFile) (cliDomain cliJql : Option String)
    (addLabels removeLabels : List String) (dryRun : Bool)
    (issues : List (String × List String)) :
    ((editPrelude cfg cliDomain addLabels removeLabels).isOk = false →
      (editPrelude cfg cliDomain addLabels removeLabels).exitCode = 1 ∧
        (editPrelude cfg cliDomain addLabels removeLabels).stderrMsg ≠ "") ∧
    ((downPrelude cfg cliDomain cliJql).isOk = false →
      (downPrelude cfg cliDomain cliJql).exitCode = 1 ∧
        (downPrelude cfg cliDomain cliJql).stderrMsg ≠ "") ∧
    (cfg = ConfigFile.missing ∨ cfg = ConfigFile.invalid →
      (editPrelude cfg cliDomain addLabels removeLabels).isOk = false ∧
        (downPrelude cfg cliDomain cliJql).isOk = false) ∧
    (∀ d s, cfg = ConfigFile.parsed d s → cliDomain = none →
      alookup d "domain" = none →
      (editPrelude cfg cliDomain addLabels removeLabels).isOk = false ∧
        (downPrelude cfg cliDomain cliJql).isOk = false) ∧
    (∀ d s dom, cfg = ConfigFile.parsed d s →
      (cliDomain = some dom ∨
        (cliDomain = none ∧ alookup d "domain" = some dom)) →
      cfgGetFallbackNone d s dom "user" = Except.ok none →
      (editPrelude cfg cliDomain addLabels removeLabels).isOk = false ∧
        (downPrelude cfg cliDomain cliJql).isOk = false) ∧
    (∀ d s dom, cfg = ConfigFile.parsed d s →
      (cliDomain = some dom ∨
        (cliDomain = none ∧ alookup d "domain" = some dom)) →
      cfgGetFallbackNone d s dom "api_token" = Except.ok none →
      (editPrelude cfg cliDomain addLabels removeLabels).isOk = false ∧
        (downPrelude cfg cliDomain cliJql).isOk = false) ∧
    (addLabels = [] → removeLabels = [] →
      (editPrelude cfg cliDomain addLabels removeLabels).isOk = false) ∧
    ((editPrelude cfg cliDomain addLabels removeLabels).isOk = false →
      (editLabelsRun cfg cliDomain addLabels removeLabels dryRun
        issues).updateCalls = [] ∧
        (editLabelsRun cfg cliDomain addLabels removeLabels dryRun
          issues).processed = 0) := by
  refine ⟨editPrelude_not_ok cfg cliDomain addLabels removeLabels,
    downPrelude_not_ok cfg cliDomain cliJql, ?_, ?_, ?_, ?_, ?_,
    editLabelsRun_prelude_fatal cfg cliDomain addLabels removeLabels dryRun
      issues⟩
  · rintro (rfl | rfl)
    · exact ⟨rfl, rfl⟩
    · exact ⟨rfl, rfl⟩
  · rintro d s rfl rfl hdd
    exact ⟨editPrelude_domain_missing d s addLabels removeLabels hdd,
      downPrelude_domain_missing d s cliJql hdd⟩
  · rintro d s dom rfl hdom hu
    exact ⟨editPrelude_user_missing d s dom cliDomain addLabels removeLabels
        hdom hu,
      downPrelude_user_missing d s dom cliDomain cliJql hdom hu⟩
  · rintro d s dom rfl hdom ht
    exact ⟨editPrelude_token_missing d s dom cliDomain addLabels removeLabels
        hdom ht,
      downPrelude_token_missing d s dom cliDomain cliJql hdom ht⟩
  · rintro rfl rfl
    exact editPrelude_no_labels cfg cliDomain

/-- C9 witness: a concrete run with the configuration file missing: the
label tool's prelude fails, terminates with exit code 1 and a nonempty
stderr message, and no issue is processed and no update call made. -/
theorem c9_witness :
    (editPrelude ConfigFile.missing none ["c"] []).isOk = false ∧
      (editPrelude ConfigFile.missing none ["c"] []).exitCode = 1 ∧
      (editPrelude ConfigFile.missing none ["c"] []).stderrMsg ≠ "" ∧
      (editLabelsRun ConfigFile.missing none ["c"] [] false
        [("K-1", ["a"])]).updateCalls = [] ∧
      (editLabelsRun ConfigFile.missing none ["c"] [] false
        [("K-1", ["a"])]).processed = 0 :=
  have hm := c9 ConfigFile.missing none none ["c"] [] false [("K-1", ["a"])]
  have hok : (editPrelude ConfigFile.missing none ["c"] []).isOk = false :=
    (hm.2.2.1 (Or.inl rfl)).1
  ⟨hok, (hm.1 hok).1, (hm.1 hok).2,
    (hm.2.2.2.2.2.2.2 hok).1, (hm.2.2.2.2.2.2.2 hok).2⟩

/-- C10: the label tool builds the service URL from the CLI
`--atlassian-domain` alone (line 82 concatenates
`args.atlassian_domain`); when the option is absent, the run fails (a
`TypeError`, exit status 1) before processing any issue or making any
update call, even when the configuration file supplies a domain (the
config value is only used to select the credentials section). -/
theorem c10 (cfg : ConfigFile) (addLabels removeLabels : List String)
    (dryRun : Bool) (issues : List (String × List String)) :
    ∃ m, editLabelsRun cfg none addLabels removeLabels dryRun issues =
      RunResult.fatal 1 m [] 0 := by
  cases hp : editPrelude cfg none addLabels removeLabels with
  | fatalExit m => exact ⟨m, by rw [editLabelsRun.eq_def, hp]⟩
  | crash m => exact ⟨m, by rw [editLabelsRun.eq_def, hp]⟩
  | ok dom u t =>
    exact ⟨"TypeError: can only concatenate str (not NoneType) to str",
      by rw [editLabelsRun.eq_def, hp]⟩

/-! ## Lemmas for the wrapper model claims -/

theorem alookup_append {β : Type} (xs ys : List (String × β)) (k : String) :
    alookup (xs ++ ys) k =
      match alookup xs k with
      | some v => some v
      | none => alookup ys k := by
  induction xs with
  | nil => rfl
  | cons p rest ih =>
    obtain ⟨k2, v2⟩ := p
    rw [List.cons_append, alookup, alookup]
    by_cases hk : k2 = k
    · rw [if_pos hk, if_pos hk]
    · rw [if_neg hk, if_neg hk, ih]

theorem PVDict.lookup_cons_ne (k k2 : String) (v : PV) (d : PVDict)
    (h : k ≠ k2) : (PVDict.cons k v d).lookup k2 = d.lookup k2 := by
  rw [PVDict.lookup, if_neg h]

/-- C8: two wrapper objects are equal under `__eq__` exactly when the
`self` values of their payloads agree (an absent key counting as `None`),
whatever the concrete subclass and the rest of the payloads. -/
theorem c8 (a b : JRestObj) :
    jiraRestObjEq a b = true ↔ a.self_url = b.self_url := by
  unfold jiraRestObjEq
  exact beq_iff_eq

theorem constructIssue_comments (ds : PVDict) (rec : IssueRec)
    (hcon : constructIssue (PV.pdict ds) = some rec)
    (fs : PVDict) (hf : ds.lookup "fields" = some (PV.pdict fs)) :
    commentsFromField fs = some rec.comments := by
  rw [constructIssue] at hcon
  rw [hf] at hcon
  simp only [bind, Option.bind_eq_some] at hcon
  obtain ⟨p, hp, cm, hcm, st, hst, su, hsu, att, hat, hmk⟩ := hcon
  injection hmk with hmk2
  rw [← hmk2]
  exact hcm

/-- C7: an issue whose `comment` field is present with no comments (an
empty or absent `comments` entry) serializes through `to_struct` to an
output that contains a `comments` entry mapped to the empty list — the key
is not omitted. -/
theorem c7 (ds fs cd : PVDict) (rec : IssueRec) (out : List (String × PV))
    (hcon : constructIssue (PV.pdict ds) = some rec)
    (hf : ds.lookup "fields" = some (PV.pdict fs))
    (hcm : fs.lookup "comment" = some (PV.pdict cd))
    (hempty : cd.lookup "comments" = none ∨
      cd.lookup "comments" = some (PV.plist PVList.nil))
    (hstruct : issueToStruct rec = some out) :
    alookup out "comments" = some (PV.plist PVList.nil) := by
  have hcc := constructIssue_comments ds rec hcon fs hf
  have hrc : rec.comments = some [] := by
    rw [commentsFromField, hcm] at hcc
    dsimp only at hcc
    rcases hempty with he | he
    · rw [he] at hcc
      exact (Option.some.inj hcc).symm
    · rw [he] at hcc
      exact (Option.some.inj hcc).symm
  cases rec with
  | mk key updated summary description created labels resolutiondate parent
      resolution comments status priority reporter assignee issuetype
      subtasks attachment =>
    rw [IssueRec.comments] at hrc
    subst hrc
    rw [issueToStruct.eq_def] at hstruct
    dsimp only at hstruct
    simp only [bind, Option.bind_eq_some] at hstruct
    obtain ⟨resS, hres, hstruct⟩ := hstruct
    simp only [commentStructsOf, Option.map] at hstruct
    injection hstruct with h2
    rw [← h2]
    cases parent <;> cases resS <;>
      simp [alookup_append, alookup, PVList.ofList]

theorem getField_skip (k k2 : String) (v : PV) (fs : PVDict) (h : k ≠ k2) :
    getField (PVDict.cons k v fs) k2 = getField fs k2 := by
  rw [getField, getField, PVDict.lookup_cons_ne _ _ _ _ h]

theorem objectFromField_skip (k k2 : String) (v : PV) (fs : PVDict)
    (h : k ≠ k2) :
    objectFromField (PVDict.cons k v fs) k2 = objectFromField fs k2 := by
  rw [objectFromField, objectFromField, PVDict.lookup_cons_ne _ _ _ _ h]

theorem statusFromField_skip (k : String) (v : PV) (fs : PVDict)
    (h : k ≠ "status") :
    statusFromField (PVDict.cons k v fs) = statusFromField fs := by
  rw [statusFromField, statusFromField, PVDict.lookup_cons_ne _ _ _ _ h]

theorem commentsFromField_skip (k : String) (v : PV) (fs : PVDict)
    (h : k ≠ "comment") :
    commentsFromField (PVDict.cons k v fs) = commentsFromField fs := by
  rw [commentsFromField, commentsFromField, PVDict.lookup_cons_ne _ _ _ _ h]

theorem attachmentsFromField_skip (k : String) (v : PV) (fs : PVDict)
    (h : k ≠ "attachment") :
    attachmentsFromField (PVDict.cons k v fs) = attachmentsFromField fs := by
  rw [attachmentsFromField, attachmentsFromField,
    PVDict.lookup_cons_ne _ _ _ _ h]

theorem objectFromField_reporter_null (fs : PVDict) :
    objectFromField (PVDict.cons "reporter" PV.pnone fs) "reporter" = none := by
  rw [objectFromField, PVDict.lookup, if_pos rfl]

theorem objectFromField_reporter_absent (fs : PVDict)
    (h : fs.lookup "reporter" = none) :
    objectFromField fs "reporter" = none := by
  rw [objectFromField, h]

/-- Constructing an issue from a payload whose `reporter` field is an
explicit null yields the same state as constructing it from the payload
with the field absent: `create_object_from_field` maps both to the
`NOT_DOWNLOADED` default. -/
theorem constructIssue_reporter_null_eq (top fs : PVDict)
    (hrep : fs.lookup "reporter" = none) :
    constructIssue (PV.pdict (PVDict.cons "fields" (PV.pdict fs) top)) =
      constructIssue (PV.pdict (PVDict.cons "fields"
        (PV.pdict (PVDict.cons "reporter" PV.pnone fs)) top)) := by
  rw [constructIssue]
  conv_rhs => rw [constructIssue]
  rw [show (PVDict.cons "fields" (PV.pdict fs) top).lookup "fields" =
      some (PV.pdict fs) from by rw [PVDict.lookup, if_pos rfl]]
  rw [show (PVDict.cons "fields"
      (PV.pdict (PVDict.cons "reporter" PV.pnone fs)) top).lookup "fields" =
      some (PV.pdict (PVDict.cons "reporter" PV.pnone fs)) from by
    rw [PVDict.lookup, if_pos rfl]]
  dsimp only
  rw [PVDict.lookup_cons_ne "fields" "key" _ _ (by decide),
    PVDict.lookup_cons_ne "fields" "key" _ _ (by decide),
    PVDict.lookup_cons_ne "fields" "updated" _ _ (by decide),
    PVDict.lookup_cons_ne "fields" "updated" _ _ (by decide)]
  rw [PVDict.lookup_cons_ne "reporter" "parent" _ _ (by decide)]
  rw [commentsFromField_skip _ _ _ (by decide)]
  rw [statusFromField_skip _ _ _ (by decide)]
  rw [PVDict.lookup_cons_ne "reporter" "subtasks" _ _ (by decide)]
  rw [attachmentsFromField_skip _ _ _ (by decide)]
  rw [getField_skip _ "summary" _ _ (by decide),
    getField_skip _ "description" _ _ (by decide),
    getField_skip _ "created" _ _ (by decide),
    getField_skip _ "labels" _ _ (by decide),
    getField_skip _ "resolutiondate" _ _ (by decide)]
  rw [objectFromField_skip _ "resolution" _ _ (by decide),
    objectFromField_skip _ "priority" _ _ (by decide),
    objectFromField_skip _ "assignee" _ _ (by decide),
    objectFromField_skip _ "issuetype" _ _ (by decide)]
  rw [objectFromField_reporter_null, objectFromField_reporter_absent fs hrep]

/-- C2, counterexample: a concrete issue payload rendered to text with the
`reporter` key absent versus present-with-null.  The claim requires the
two texts to differ; they are equal (both render `Reporter: Unknown`),
because `create_object_from_field` collapses an explicit null into the
same `NOT_DOWNLOADED` default as an absent key. -/
theorem c2_counterexample :
    Option.bind (constructIssue (PV.pdict (PVDict.ofList
      [("key", PV.pstr "K-1"), ("updated", PV.pstr "2024-01-02"),
       ("fields", PV.pdict (PVDict.ofList
         [("summary", PV.pstr "S"), ("description", PV.pstr "D"),
          ("created", PV.pstr "2024-01-01"),
          ("labels", PV.plist PVList.nil), ("resolutiondate", PV.pnone),
          ("status", PV.pdict (PVDict.ofList [("name", PV.pstr "Open")])),
          ("priority", PV.pdict (PVDict.ofList [("name", PV.pstr "High")])),
          ("issuetype", PV.pdict (PVDict.ofList [("name", PV.pstr "Bug")])),
          ("comment", PV.pdict (PVDict.ofList
            [("comments", PV.plist PVList.nil)]))]))]))) issueToText =
      Option.bind (constructIssue (PV.pdict (PVDict.ofList
        [("key", PV.pstr "K-1"), ("updated", PV.pstr "2024-01-02"),
         ("fields", PV.pdict (PVDict.ofList
           [("reporter", PV.pnone),
            ("summary", PV.pstr "S"), ("description", PV.pstr "D"),
            ("created", PV.pstr "2024-01-01"),
            ("labels", PV.plist PVList.nil), ("resolutiondate", PV.pnone),
            ("status", PV.pdict (PVDict.ofList [("name", PV.pstr "Open")])),
            ("priority", PV.pdict (PVDict.ofList [("name", PV.pstr "High")])),
            ("issuetype", PV.pdict (PVDict.ofList [("name", PV.pstr "Bug")])),
            ("comment", PV.pdict (PVDict.ofList
              [("comments", PV.plist PVList.nil)]))]))]))) issueToText ∧
    (Option.bind (constructIssue (PV.pdict (PVDict.ofList
      [("key", PV.pstr "K-1"), ("updated", PV.pstr "2024-01-02"),
       ("fields", PV.pdict (PVDict.ofList
         [("summary", PV.pstr "S"), ("description", PV.pstr "D"),
          ("created", PV.pstr "2024-01-01"),
          ("labels", PV.plist PVList.nil), ("resolutiondate", PV.pnone),
          ("status", PV.pdict (PVDict.ofList [("name", PV.pstr "Open")])),
          ("priority", PV.pdict (PVDict.ofList [("name", PV.pstr "High")])),
          ("issuetype", PV.pdict (PVDict.ofList [("name", PV.pstr "Bug")])),
          ("comment", PV.pdict (PVDict.ofList
            [("comments", PV.plist PVList.nil)]))]))]))) issueToText).isSome =
      true := by
  constructor
  · rw [constructIssue]
    conv_rhs => rw [constructIssue]
    rfl
  · rw [constructIssue]
    rfl

/-- C2 (amended): for the object-valued fields produced by
`create_object_from_field` (reporter, and likewise assignee, resolution,
status, priority, issuetype, comments, parent), an explicit null in the
payload is collapsed into the same `NOT_DOWNLOADED` marker as an absent
key, so the constructed issue state — and hence the serialized text — is
identical for the two payloads; only the directly rendered scalar fields
(summary, description, created, ...) distinguish an absent key
(`"<not downloaded>"`) from an explicit null (`"None"`). -/
theorem c2_amended (top fs : PVDict) (hrep : fs.lookup "reporter" = none) :
    constructIssue (PV.pdict (PVDict.cons "fields" (PV.pdict fs) top)) =
        constructIssue (PV.pdict (PVDict.cons "fields"
          (PV.pdict (PVDict.cons "reporter" PV.pnone fs)) top)) ∧
      Option.bind (constructIssue (PV.pdict
          (PVDict.cons "fields" (PV.pdict fs) top))) issueToText =
        Option.bind (constructIssue (PV.pdict (PVDict.cons "fields"
          (PV.pdict (PVDict.cons "reporter" PV.pnone fs)) top)))
          issueToText ∧
      pyStr PV.nd ≠ pyStr PV.pnone := by
  have h1 := constructIssue_reporter_null_eq top fs hrep
  exact ⟨h1, by rw [h1], by decide⟩

/-- C2 witness: the empty field dict (no reporter key). -/
theorem c2_witness :
    constructIssue (PV.pdict
        (PVDict.cons "fields" (PV.pdict PVDict.nil) PVDict.nil)) =
        constructIssue (PV.pdict (PVDict.cons "fields"
          (PV.pdict (PVDict.cons "reporter" PV.pnone PVDict.nil))
          PVDict.nil)) ∧
      Option.bind (constructIssue (PV.pdict
          (PVDict.cons "fields" (PV.pdict PVDict.nil) PVDict.nil)))
          issueToText =
        Option.bind (constructIssue (PV.pdict (PVDict.cons "fields"
          (PV.pdict (PVDict.cons "reporter" PV.pnone PVDict.nil))
          PVDict.nil))) issueToText ∧
      pyStr PV.nd ≠ pyStr PV.pnone :=
  c2_amended PVDict.nil PVDict.nil rfl

/-- C7 witness: a minimal payload whose `comment` field holds an empty
comment list. -/
theorem c7_witness :
    alookup
      [("type", PV.pstr "JiraIssue"), ("key", PV.pnone), ("summary", PV.nd),
       ("description", PV.nd), ("created", PV.nd), ("labels", PV.nd),
       ("updated", PV.pnone), ("resolutiondate", PV.nd),
       ("comments", PV.plist PVList.nil)] "comments" =
      some (PV.plist PVList.nil) :=
  c7
    (PVDict.ofList [("fields",
      PV.pdict (PVDict.ofList [("comment",
        PV.pdict (PVDict.ofList [("comments", PV.plist PVList.nil)]))]))])
    (PVDict.ofList [("comment",
      PV.pdict (PVDict.ofList [("comments", PV.plist PVList.nil)]))])
    (PVDict.ofList [("comments", PV.plist PVList.nil)])
    (IssueRec.mk PV.pnone PV.pnone PV.nd PV.nd PV.nd PV.nd PV.nd
      none none (some []) none none none none none [] [])
    [("type", PV.pstr "JiraIssue"), ("key", PV.pnone), ("summary", PV.nd),
     ("description", PV.nd), ("created", PV.nd), ("labels", PV.nd),
     ("updated", PV.pnone), ("resolutiondate", PV.nd),
     ("comments", PV.plist PVList.nil)]
    (by rw [constructIssue]; rfl) rfl rfl (Or.inr rfl) rfl

end JiraTools
